import Mathlib

/-!
Shallow embedding of the nrg-testbed backend, covering:
- `src/backend/testbed/src/connection.rs` (runner-side `Connection` actor:
  reconnect backoff, frame handling, stream handler), and
- `src/backend/experiment/src/handlers.rs` (coordinator-side HTTP handlers:
  `join_server`, experiment CRUD, `run_experiment`).

External collaborators (serde_json parsing, the `Hash` token codec, the
database, the actix mailbox) are modelled as oracle data or oracle function
arguments; everything the repository's own code decides is translated
directly from the source.
-/

namespace Testbed

/-! ### Wire protocol (`core::websocket_messages`)

`core` is an external crate of the repository; the shapes below are those
used by `connection.rs`: `client::BaseMessage { kind }`,
`client::SocketMessage<client::RunExperiment>` with `data.run_id`, and
`server::SocketMessage { kind, data : RunResult { run_id, successful } }`.
The `match base.kind` in `handle_frame` has a single arm and no wildcard,
so `client::SocketMessageKind` has exactly one variant. -/

inductive ClientSocketMessageKind where
  | RunExperiment
deriving DecidableEq, Repr

structure ClientBaseMessage where
  kind : ClientSocketMessageKind
deriving DecidableEq, Repr

structure ClientRunExperiment where
  run_id : Nat
deriving DecidableEq, Repr

inductive ServerSocketMessageKind where
  | RunResult
deriving DecidableEq, Repr

structure RunResult where
  run_id : Nat
  successful : Bool
deriving DecidableEq, Repr

structure ServerSocketMessage where
  kind : ServerSocketMessageKind
  data : RunResult
deriving DecidableEq, Repr

/-- `core::SocketErrorKind`: only `InvalidMessage` is used by `connection.rs`. -/
inductive SocketErrorKind where
  | InvalidMessage
deriving DecidableEq, Repr

/-! ### Inbound frames

A text frame's payload is a byte string fed through three external parsers
(`String::from_utf8`, `serde_json::from_str::<BaseMessage>`,
`serde_json::from_str::<SocketMessage<RunExperiment>>`).  Those parsers are
external to the repository, so a text payload is modelled by the outcome of
each parse; `handle_frame` consults them in exactly the source's order. -/

structure TextPayload where
  /-- outcome of `String::from_utf8(bytes.to_vec())` -/
  utf8Ok : Bool
  /-- outcome of `serde_json::from_str::<client::BaseMessage>(text)` -/
  baseMessage : Option ClientBaseMessage
  /-- outcome of `serde_json::from_str::<client::SocketMessage<client::RunExperiment>>(text)` -/
  runExperiment : Option ClientRunExperiment
deriving DecidableEq, Repr

/-- `awc::ws::Frame` as consumed by `Connection::handle_frame`: the wildcard
arm `_ => {}` covers binary/close/continuation frames. -/
inductive Frame where
  | ping
  | pong
  | text (payload : TextPayload)
  | other
deriving DecidableEq, Repr

/-- `awc::error::WsProtocolError`, opaque to the code under `src/`. -/
structure WsProtocolError where
  code : Nat
deriving DecidableEq, Repr

/-! ### `Connection` state (`connection.rs`) -/

def MAX_TIMING : Nat := 5

def TIMINGS : List Nat := [0, 2, 4, 6, 8]

/-- The runner-side `Connection` actor state.  The `SinkWrite` handle and the
executor `Addr` are opaque handles; only their presence matters to the code. -/
structure Connection where
  server_url : String
  access_token : String
  sink : Option Unit
  current_timing_index : Nat
  executor : Option Nat
deriving DecidableEq, Repr

def Connection.new (server_url access_token : String) : Connection :=
  { server_url := server_url
    access_token := access_token
    sink := none
    current_timing_index := 0
    executor := none }

/-- `Connection::handle_frame`.  Messages written to the sink via
`sink.write(...)` are returned as the middle component; the source writes to
the sink only when `self.sink` is `Some`, and mutates no other field. -/
def Connection.handle_frame (c : Connection) (frame : Frame) :
    Connection × List ServerSocketMessage × Except SocketErrorKind Unit :=
  match frame with
  | .ping => (c, [], .ok ())
  | .pong => (c, [], .ok ())
  | .text payload =>
    if !payload.utf8Ok then
      (c, [], .error .InvalidMessage)
    else
      match payload.baseMessage with
      | none => (c, [], .error .InvalidMessage)
      | some base =>
        match base.kind with
        | .RunExperiment =>
          match payload.runExperiment with
          | none => (c, [], .error .InvalidMessage)
          | some run_experiment =>
            match c.sink with
            | some _ =>
              (c, [{ kind := .RunResult,
                     data := { run_id := run_experiment.run_id, successful := true } }],
               .ok ())
            | none => (c, [], .ok ())
  | .other => (c, [], .ok ())

/-- `StreamHandler::handle` for `Connection`: a decode error from
`handle_frame`, like a transport error on the item itself, is logged and
swallowed; the actor keeps running. -/
def Connection.stream_handle (c : Connection) (item : Except WsProtocolError Frame) :
    Connection × List ServerSocketMessage :=
  match item with
  | .ok frame =>
    let r := c.handle_frame frame
    (r.1, r.2.1)
  | .error _ => (c, [])

/-- Folding `StreamHandler::handle` over a sequence of inbound items, as the
actix runtime does while the stream stays open; outputs are concatenated. -/
def Connection.run_stream (c : Connection) :
    List (Except WsProtocolError Frame) → Connection × List ServerSocketMessage
  | [] => (c, [])
  | item :: rest =>
    let r := c.stream_handle item
    let r' := r.1.run_stream rest
    (r'.1, r.2 ++ r'.2)

/-! ### Reconnect backoff (`Connection::try_connect`)

`try_connect` spawns `Self::connect` and then, in the continuation, either
installs the sink and resets `current_timing_index` (success), or bumps the
index with saturation and schedules a retry `TIMINGS[index]` seconds later
(failure).  The continuation is embedded as a step function on the actor
state; the scheduled delay is the second component, `none` meaning no timer
was started, and the list lookup `TIMINGS.get?` models the (panicking on
out-of-bounds) array index `TIMINGS[act.current_timing_index]`. -/

inductive ConnectOutcome where
  | success
  | failure
deriving DecidableEq, Repr

def Connection.try_connect_step (c : Connection) :
    ConnectOutcome → Connection × Option (Option Nat)
  | .success => ({ c with sink := some (), current_timing_index := 0 }, none)
  | .failure =>
    let i := min (c.current_timing_index + 1) (MAX_TIMING - 1)
    ({ c with current_timing_index := i }, some (TIMINGS.get? i))

/-- Run a sequence of connect-attempt outcomes, keeping only the state. -/
def Connection.run_attempts (c : Connection) : List ConnectOutcome → Connection
  | [] => c
  | o :: os => ((c.try_connect_step o).1).run_attempts os

/-- Delays scheduled by `n` consecutive failed connect attempts from `c`. -/
def Connection.failure_delays (c : Connection) : Nat → List (Option Nat)
  | 0 => []
  | n + 1 =>
    let r := c.try_connect_step .failure
    (r.2.getD none) :: r.1.failure_delays n

/-! ### Data model (`experiment::models`, `core::schema`)

The model structs live in crates of the repository not present under
`src/`; their fields are those read and written by `handlers.rs`
(`experiment.id/user_id/name/code`, `runner.id/access_key`,
`job.id/experiment_id/runner_id/code/status`, `RunnerToken.access_key`). -/

structure Experiment where
  id : Nat
  user_id : Nat
  name : String
  code : String
deriving DecidableEq, Repr

/-- `JobStatus`.  Modelled from the spec: the status enum of the Job state
machine has states `Pending → Running → {Completed, Failed}`; `handlers.rs`
itself names only `JobStatus::Failed`. -/
inductive JobStatus where
  | Pending
  | Running
  | Completed
  | Failed
deriving DecidableEq, Repr

structure Job where
  id : Nat
  experiment_id : Nat
  runner_id : Nat
  code : String
  status : JobStatus
deriving DecidableEq, Repr

structure Runner where
  id : Nat
  access_key : String
deriving DecidableEq, Repr

structure RunnerToken where
  access_key : String
deriving DecidableEq, Repr

/-- The database visible to `handlers.rs`: the `experiments`, `jobs` and
`runners` tables, with `next_job_id` modelling the sequence that assigns the
primary key returned by `get_result` on a jobs insert. -/
structure DB where
  experiments : List Experiment
  jobs : List Job
  runners : List Runner
  next_job_id : Nat
deriving DecidableEq, Repr

/-- `core::ErrorMessage` variants reachable from `handlers.rs`, plus
`NotFound` for a diesel `first()` on an empty result (propagated by
`web::block(..).await?`) and `InvalidOperationForStatus`, which the spec
lists in the error taxonomy (modelled from the spec; no code under `src/`
produces it). -/
inductive ErrorMessage where
  | InvalidToken
  | WebSocketConnectionError
  | NotFound
  | InvalidOperationForStatus
deriving DecidableEq, Repr

/-- The body of a handler's `HttpResponse::Ok().json(SuccessResponse::default())`. -/
inductive HandlerResponse where
  | success
deriving DecidableEq, Repr

/-- Coordinator-side `Session::new(experiment_server, runner.id)`; the server
address is an opaque handle. -/
structure Session where
  runner_id : Nat
deriving DecidableEq, Repr

/-! ### Handlers (`experiment::handlers`)

`hash.decode::<RunnerToken>` (the `Hash` codec of the `core` crate) and the
outcome of `ws::start` / of the actix mailbox send are external, and enter
as oracle arguments.  Diesel queries are translated clause by clause:
`filter(...).find(id).first()` is `List.find?` over the table with the
conjunction of both conditions, `insert ... get_result` appends a row keyed
by `next_job_id`, `update(...).set(...)` maps over the table, and
`delete(...)` filters the table. -/

def join_server (decode : String → Option RunnerToken) (db : DB) (ws_start_ok : Bool)
    (token : String) : Except ErrorMessage Session :=
  match decode token with
  | none => .error .InvalidToken
  | some t =>
    match db.runners.find? (fun r => r.access_key == t.access_key) with
    | none => .error .NotFound
    | some runner =>
      if ws_start_ok then .ok { runner_id := runner.id }
      else .error .WebSocketConnectionError

def update_experiment_name (db : DB) (user_id experiment_id : Nat) (name : String) :
    DB × Except ErrorMessage HandlerResponse :=
  ({ db with
      experiments := db.experiments.map fun e =>
        if e.user_id == user_id && e.id == experiment_id then { e with name := name } else e },
   .ok .success)

def update_experiment_code (db : DB) (user_id experiment_id : Nat) (code : String) :
    DB × Except ErrorMessage HandlerResponse :=
  ({ db with
      experiments := db.experiments.map fun e =>
        if e.user_id == user_id && e.id == experiment_id then { e with code := code } else e },
   .ok .success)

def delete_experiment (db : DB) (user_id experiment_id : Nat) :
    DB × Except ErrorMessage HandlerResponse :=
  ({ db with
      experiments := db.experiments.filter fun e =>
        !(e.user_id == user_id && e.id == experiment_id) },
   .ok .success)

/-- `run_experiment`: look up the caller's experiment and the runner, insert
a Job snapshotting `experiment.code` (status defaulting to `Pending` — the
jobs schema is outside `src/`; modelled from the spec: "Creating a Job sets
it to `Pending`"), then send `RunExperimentMessage` to the `ExperimentServer`
(`send_ok` is the mailbox oracle); on send error, set that job's status to
`Failed`; in every case past job creation answer with a success response. -/
def run_experiment (db : DB) (send_ok : Bool) (user_id experiment_id runner_id : Nat) :
    DB × Except ErrorMessage HandlerResponse :=
  match db.experiments.find? (fun e => e.user_id == user_id && e.id == experiment_id) with
  | none => (db, .error .NotFound)
  | some experiment =>
    match db.runners.find? (fun r => r.id == runner_id) with
    | none => (db, .error .NotFound)
    | some runner =>
      let job : Job :=
        { id := db.next_job_id
          experiment_id := experiment.id
          runner_id := runner.id
          code := experiment.code
          status := .Pending }
      let db1 : DB := { db with jobs := db.jobs ++ [job], next_job_id := db.next_job_id + 1 }
      if send_ok then
        (db1, .ok .success)
      else
        ({ db1 with
            jobs := db1.jobs.map fun j =>
              if j.id == job.id then { j with status := .Failed } else j },
         .ok .success)

end Testbed

namespace Testbed

/-! ### Helper lemmas -/

/-- A map whose function fixes every element of the list is the identity. -/
theorem list_map_eq_self {α : Type} (l : List α) (f : α → α)
    (h : ∀ x ∈ l, f x = x) : l.map f = l := by
  induction l with
  | nil => rfl
  | cons a t ih =>
    simp only [List.map_cons, h a (List.mem_cons_self a t)]
    rw [ih fun x hx => h x (List.mem_cons_of_mem a hx)]

/-- After `n + 1` consecutive failed connect attempts the timing index is
the saturated sum `min (start + n + 1) (MAX_TIMING - 1)`. -/
theorem run_attempts_failure_index (n : Nat) :
    ∀ c : Connection,
      (c.run_attempts (List.replicate (n + 1) .failure)).current_timing_index
        = min (c.current_timing_index + (n + 1)) (MAX_TIMING - 1) := by
  induction n with
  | zero =>
    intro c
    simp [Connection.run_attempts, Connection.try_connect_step]
  | succ n ih =>
    intro c
    rw [List.replicate_succ]
    show ((c.try_connect_step .failure).1.run_attempts
        (List.replicate (n + 1) .failure)).current_timing_index = _
    rw [ih]
    simp only [Connection.try_connect_step, MAX_TIMING]
    omega

/-- The `k`-th (0-based) delay among `n` consecutive failure delays. -/
theorem failure_delays_get (n : Nat) :
    ∀ (c : Connection) (k : Nat), k < n →
      (c.failure_delays n).get? k
        = some (TIMINGS.get? (min (c.current_timing_index + k + 1) (MAX_TIMING - 1))) := by
  induction n with
  | zero => intro c k hk; omega
  | succ n ih =>
    intro c k hk
    match k with
    | 0 =>
      simp [Connection.failure_delays, Connection.try_connect_step]
    | k + 1 =>
      show ((c.try_connect_step .failure).1.failure_delays n).get? k = _
      rw [ih _ k (by omega)]
      have harg :
          min ((c.try_connect_step .failure).1.current_timing_index + k + 1) (MAX_TIMING - 1)
            = min (c.current_timing_index + (k + 1) + 1) (MAX_TIMING - 1) := by
        simp only [Connection.try_connect_step, MAX_TIMING]
        omega
      rw [harg]

/-- Every connect-attempt step leaves the timing index below `MAX_TIMING`. -/
theorem run_attempts_index_lt (os : List ConnectOutcome) :
    ∀ c : Connection, c.current_timing_index < MAX_TIMING →
      (c.run_attempts os).current_timing_index < MAX_TIMING := by
  induction os with
  | nil => intro c h; exact h
  | cons o rest ih =>
    intro c h
    show ((c.try_connect_step o).1.run_attempts rest).current_timing_index < MAX_TIMING
    apply ih
    cases o <;> simp [Connection.try_connect_step, MAX_TIMING]

/-- A filter whose test accepts every element of the list is the identity. -/
theorem list_filter_eq_self {α : Type} (l : List α) (p : α → Bool)
    (h : ∀ x ∈ l, p x = true) : l.filter p = l := by
  induction l with
  | nil => rfl
  | cons a t ih =>
    rw [List.filter_cons_of_pos (h a (List.mem_cons_self a t)),
      ih fun x hx => h x (List.mem_cons_of_mem a hx)]

/-- Rewriting the `code` column of the matched row commutes with `find?` on
the ownership test, which the rewrite leaves untouched. -/
theorem find?_map_set_code (user_id experiment_id : Nat) (code : String) :
    ∀ (l : List Experiment) (e : Experiment),
      l.find? (fun x => x.user_id == user_id && x.id == experiment_id) = some e →
      (l.map fun x =>
          if x.user_id == user_id && x.id == experiment_id
          then { x with code := code } else x).find?
        (fun x => x.user_id == user_id && x.id == experiment_id)
        = some { e with code := code } := by
  intro l
  induction l with
  | nil => intro e he; simp at he
  | cons a t ih =>
    intro e he
    cases ha : (a.user_id == user_id && a.id == experiment_id) with
    | true =>
      rw [List.find?_cons, ha] at he
      injection he with he
      subst he
      rw [List.map_cons, if_pos ha, List.find?_cons]
      have ha2 : (({ a with code := code } : Experiment).user_id == user_id
          && ({ a with code := code } : Experiment).id == experiment_id) = true := ha
      rw [ha2]
    | false =>
      rw [List.find?_cons, ha] at he
      have hneg : ¬ ((a.user_id == user_id && a.id == experiment_id) = true) := by
        rw [ha]
        exact Bool.false_ne_true
      rw [List.map_cons, if_neg hneg, List.find?_cons, ha]
      exact ih e he

/-! ### Claim theorems: Connection (runner side) -/

/-- Claim C1: the Connection selects its retry delay from the fixed schedule
`TIMINGS` by a saturating counter.  Starting from a fresh or just-connected
state (timing index `0`): the `N`-th consecutive failed attempt schedules
delay `TIMINGS[min N (TIMINGS.length - 1)]`; after `N` failures the counter
has saturated to `min N (MAX_TIMING - 1)`; every successful connect resets
the counter to `0`; and the first failure after a success schedules
`TIMINGS[1]`. -/
theorem connection_backoff_schedule (c : Connection)
    (h0 : c.current_timing_index = 0) (N : Nat) (hN : 1 ≤ N) :
    (c.failure_delays N).get? (N - 1)
        = some (TIMINGS.get? (min N (TIMINGS.length - 1)))
      ∧ (c.run_attempts (List.replicate N .failure)).current_timing_index
          = min N (MAX_TIMING - 1)
      ∧ (∀ c₁ : Connection, ((c₁.try_connect_step .success).1).current_timing_index = 0)
      ∧ (∀ c₁ : Connection,
          (((c₁.try_connect_step .success).1).try_connect_step .failure).2
            = some (TIMINGS.get? 1)) := by
  obtain ⟨n, rfl⟩ : ∃ n, N = n + 1 := ⟨N - 1, by omega⟩
  refine ⟨?_, ?_, ?_, ?_⟩
  · have hn : n + 1 - 1 = n := by omega
    rw [hn, failure_delays_get (n + 1) c n (by omega), h0]
    have harg : min (0 + n + 1) (MAX_TIMING - 1) = min (n + 1) (TIMINGS.length - 1) := by
      simp only [MAX_TIMING, TIMINGS, List.length]
      omega
    rw [harg]
  · rw [run_attempts_failure_index n c, h0, Nat.zero_add]
  · intro c₁
    simp [Connection.try_connect_step]
  · intro c₁
    simp [Connection.try_connect_step, MAX_TIMING]

/-- Witness for C1 at `N = 6` from a fresh connection. -/
theorem connection_backoff_schedule_witness :
    ((Connection.new "ws" "tok").failure_delays 6).get? 5
        = some (TIMINGS.get? (min 6 (TIMINGS.length - 1)))
      ∧ ((Connection.new "ws" "tok").run_attempts
            (List.replicate 6 .failure)).current_timing_index
          = min 6 (MAX_TIMING - 1)
      ∧ (∀ c₁ : Connection, ((c₁.try_connect_step .success).1).current_timing_index = 0)
      ∧ (∀ c₁ : Connection,
          (((c₁.try_connect_step .success).1).try_connect_step .failure).2
            = some (TIMINGS.get? 1)) :=
  connection_backoff_schedule (Connection.new "ws" "tok") rfl 6 (by omega)

/-- Claim C9: for any sequence of failed and successful connect attempts the
`current_timing_index` of the reachable state stays below `MAX_TIMING`, so
the array access `TIMINGS[current_timing_index]` is in bounds and never
panics (the lookup performed on a failed attempt is the one at the resulting
state's index, which this covers for every reachable state). -/
theorem connection_timing_index_in_bounds (url tok : String)
    (os : List ConnectOutcome) :
    ((Connection.new url tok).run_attempts os).current_timing_index < MAX_TIMING
      ∧ (TIMINGS.get?
          (((Connection.new url tok).run_attempts os).current_timing_index)).isSome := by
  have h := run_attempts_index_lt os (Connection.new url tok)
    (by simp [Connection.new, MAX_TIMING])
  refine ⟨h, ?_⟩
  have hlen : ((Connection.new url tok).run_attempts os).current_timing_index
      < TIMINGS.length := h
  rw [List.get?_eq_get hlen]
  rfl

/-- Claim C3: a text frame that is not valid UTF-8, or not a parseable
envelope, or whose data does not match the shape of its kind tag, makes
`handle_frame` yield `InvalidMessage` with no outbound message and no state
change; the stream handler swallows the error, and processing of the
remaining inbound items is unaffected. -/
theorem invalid_frame_logged_and_dropped (c : Connection) (p : TextPayload)
    (h : p.utf8Ok = false ∨ p.baseMessage = none ∨ p.runExperiment = none)
    (rest : List (Except WsProtocolError Frame)) :
    c.handle_frame (.text p) = (c, [], .error .InvalidMessage)
      ∧ c.stream_handle (.ok (.text p)) = (c, [])
      ∧ c.run_stream (.ok (.text p) :: rest) = c.run_stream rest := by
  have h1 : c.handle_frame (.text p) = (c, [], .error .InvalidMessage) := by
    obtain ⟨u, b, r⟩ := p
    rcases h with h | h | h <;>
      simp only at h <;> subst h
    · simp [Connection.handle_frame]
    · cases u <;> simp [Connection.handle_frame]
    · cases u
      · simp [Connection.handle_frame]
      · rcases b with _ | ⟨k⟩
        · simp [Connection.handle_frame]
        · cases k
          simp [Connection.handle_frame]
  refine ⟨h1, ?_, ?_⟩
  · simp [Connection.stream_handle, h1]
  · simp [Connection.run_stream, Connection.stream_handle, h1]

/-- Witness for C3: a non-UTF-8 text frame on a fresh connection. -/
theorem invalid_frame_logged_and_dropped_witness :
    (Connection.new "ws" "tok").handle_frame
        (.text { utf8Ok := false, baseMessage := none, runExperiment := none })
        = (Connection.new "ws" "tok", [], .error .InvalidMessage)
      ∧ (Connection.new "ws" "tok").stream_handle
          (.ok (.text { utf8Ok := false, baseMessage := none, runExperiment := none }))
          = (Connection.new "ws" "tok", [])
      ∧ (Connection.new "ws" "tok").run_stream
          (.ok (.text { utf8Ok := false, baseMessage := none, runExperiment := none }) :: [])
          = (Connection.new "ws" "tok").run_stream [] :=
  invalid_frame_logged_and_dropped (Connection.new "ws" "tok")
    { utf8Ok := false, baseMessage := none, runExperiment := none } (Or.inl rfl) []

/-- Claim C2 evaluation: on a well-formed `RunExperiment` frame with the sink
present and an executor installed, `handle_frame` immediately writes
`RunResult { run_id, successful := true }` — it neither consults the
executor nor waits for any completion, and it can never report
`successful := false`. -/
theorem handle_frame_replies_true_without_executor :
    Connection.handle_frame
        { server_url := "ws", access_token := "tok", sink := some (),
          current_timing_index := 0, executor := some 1 }
        (.text { utf8Ok := true,
                 baseMessage := some { kind := .RunExperiment },
                 runExperiment := some { run_id := 7 } })
      = ({ server_url := "ws", access_token := "tok", sink := some (),
           current_timing_index := 0, executor := some 1 },
         [{ kind := .RunResult, data := { run_id := 7, successful := true } }],
         .ok ()) := rfl

/-- Claim C10: a valid `RunExperiment` frame handled while the outbound sink
is absent is silently consumed: `handle_frame` returns `Ok`, writes nothing,
and changes no state. -/
theorem handle_frame_without_sink_silently_consumes (c : Connection)
    (h : c.sink = none) (p : TextPayload) (hu : p.utf8Ok = true)
    (hb : p.baseMessage.isSome = true) (hr : p.runExperiment.isSome = true) :
    c.handle_frame (.text p) = (c, [], .ok ()) := by
  obtain ⟨u, b, r⟩ := p
  simp only at hu hb hr
  subst hu
  rcases b with _ | ⟨k⟩
  · simp at hb
  · cases k
    rcases r with _ | re
    · simp at hr
    · simp [Connection.handle_frame, h]

/-- Witness for C10: a fresh connection (whose sink is `none`) consuming a
valid `RunExperiment` frame. -/
theorem handle_frame_without_sink_silently_consumes_witness :
    (Connection.new "ws" "tok").handle_frame
        (.text { utf8Ok := true,
                 baseMessage := some { kind := .RunExperiment },
                 runExperiment := some { run_id := 7 } })
      = (Connection.new "ws" "tok", [], .ok ()) :=
  handle_frame_without_sink_silently_consumes (Connection.new "ws" "tok") rfl
    { utf8Ok := true, baseMessage := some { kind := .RunExperiment },
      runExperiment := some { run_id := 7 } } rfl rfl rfl

/-! ### Claim theorems: handlers (coordinator side) -/

/-- Claim C4: `join_server` establishes the runner's identity before any
Session exists: an undecodable token yields `InvalidToken`, a decoded token
whose `access_key` matches no Runner row fails with the lookup's `NotFound`,
and any `Ok` Session presupposes a decoded token and a matching Runner, the
Session being the one built from that Runner's id. -/
theorem join_server_authenticates_before_session
    (decode : String → Option RunnerToken) (db : DB) (ws_start_ok : Bool)
    (token : String) :
    (decode token = none →
        join_server decode db ws_start_ok token = .error .InvalidToken)
      ∧ (∀ t, decode token = some t →
          db.runners.find? (fun r => r.access_key == t.access_key) = none →
          join_server decode db ws_start_ok token = .error .NotFound)
      ∧ (∀ s, join_server decode db ws_start_ok token = .ok s →
          ∃ t runner, decode token = some t
            ∧ db.runners.find? (fun r => r.access_key == t.access_key) = some runner
            ∧ s = { runner_id := runner.id }) := by
  refine ⟨?_, ?_, ?_⟩
  · intro h
    simp [join_server, h]
  · intro t ht hr
    simp [join_server, ht, hr]
  · intro s hs
    cases hd : decode token with
    | none => simp [join_server, hd] at hs
    | some t =>
      cases hf : db.runners.find? (fun r => r.access_key == t.access_key) with
      | none => simp [join_server, hd, hf] at hs
      | some runner =>
        simp only [join_server, hd, hf] at hs
        cases ws_start_ok with
        | false => simp at hs
        | true =>
          rw [if_pos rfl] at hs
          injection hs with hs
          exact ⟨t, runner, rfl, hf, hs.symm⟩

/-- Witness for C4: an undecodable token is rejected with `InvalidToken`;
a decodable token with no matching Runner row fails with `NotFound`. -/
theorem join_server_authenticates_before_session_witness :
    join_server (fun _ => none)
        { experiments := [], jobs := [], runners := [], next_job_id := 0 } true "t"
        = .error .InvalidToken
      ∧ join_server (fun _ => some { access_key := "k" })
          { experiments := [], jobs := [], runners := [], next_job_id := 0 } true "t"
        = .error .NotFound :=
  ⟨(join_server_authenticates_before_session (fun _ => none)
      { experiments := [], jobs := [], runners := [], next_job_id := 0 } true "t").1 rfl,
   (join_server_authenticates_before_session (fun _ => some { access_key := "k" })
      { experiments := [], jobs := [], runners := [], next_job_id := 0 } true "t").2.1
      { access_key := "k" } rfl rfl⟩

/-- Claim C5: when the mailbox send of `RunExperimentMessage` fails, the
handler sets the freshly inserted Job's status to `Failed` and touches
nothing else: the resulting database equals the input with exactly one new
job row whose fields are the insert's values except `status = Failed`; the
successful-send run of the same request differs from it only in that status
column.  (`hfresh` is the primary-key freshness of the jobs sequence.) -/
theorem run_experiment_send_failure_only_sets_status
    (db : DB) (user_id experiment_id runner_id : Nat) (e : Experiment)
    (he : db.experiments.find?
        (fun x => x.user_id == user_id && x.id == experiment_id) = some e)
    (r : Runner) (hr : db.runners.find? (fun x => x.id == runner_id) = some r)
    (hfresh : ∀ j ∈ db.jobs, j.id ≠ db.next_job_id) :
    run_experiment db false user_id experiment_id runner_id
        = ({ db with
              jobs := db.jobs ++
                [{ id := db.next_job_id, experiment_id := e.id, runner_id := r.id,
                   code := e.code, status := .Failed }],
              next_job_id := db.next_job_id + 1 },
           .ok .success)
      ∧ (run_experiment db true user_id experiment_id runner_id).1.jobs
          = db.jobs ++
            [{ id := db.next_job_id, experiment_id := e.id, runner_id := r.id,
               code := e.code, status := .Pending }] := by
  have hmap : (db.jobs ++
        [({ id := db.next_job_id, experiment_id := e.id, runner_id := r.id,
            code := e.code, status := .Pending } : Job)]).map
          (fun j => if j.id == db.next_job_id
            then { j with status := JobStatus.Failed } else j)
      = db.jobs ++
        [{ id := db.next_job_id, experiment_id := e.id, runner_id := r.id,
           code := e.code, status := .Failed }] := by
    rw [List.map_append]
    congr 1
    · apply list_map_eq_self
      intro j hj
      have hne : (j.id == db.next_job_id) = false :=
        beq_eq_false_iff_ne.mpr (hfresh j hj)
      simp [hne]
    · simp
  constructor
  · simp only [run_experiment, he, hr, Bool.false_eq_true, if_false]
    rw [hmap]
  · simp only [run_experiment, he, hr, if_true]

/-- Witness for C5 on a one-experiment, one-runner database. -/
theorem run_experiment_send_failure_only_sets_status_witness :
    run_experiment
        { experiments := [{ id := 1, user_id := 2, name := "e", code := "c" }]
          jobs := [], runners := [{ id := 3, access_key := "k" }], next_job_id := 0 }
        false 2 1 3
        = ({ experiments := [{ id := 1, user_id := 2, name := "e", code := "c" }]
             jobs := [] ++ [{ id := 0, experiment_id := 1, runner_id := 3,
                              code := "c", status := .Failed }]
             runners := [{ id := 3, access_key := "k" }], next_job_id := 0 + 1 },
           .ok .success)
      ∧ (run_experiment
          { experiments := [{ id := 1, user_id := 2, name := "e", code := "c" }]
            jobs := [], runners := [{ id := 3, access_key := "k" }], next_job_id := 0 }
          true 2 1 3).1.jobs
        = [] ++ [{ id := 0, experiment_id := 1, runner_id := 3,
                   code := "c", status := .Pending }] :=
  run_experiment_send_failure_only_sets_status
    { experiments := [{ id := 1, user_id := 2, name := "e", code := "c" }]
      jobs := [], runners := [{ id := 3, access_key := "k" }], next_job_id := 0 }
    2 1 3 { id := 1, user_id := 2, name := "e", code := "c" } rfl
    { id := 3, access_key := "k" } rfl (by intro j hj; cases hj)

/-- Claim C6 counterexample: on a database whose only job for experiment 1 is
`Pending`, a re-dispatch through `run_experiment` is not rejected with
`InvalidOperationForStatus`: it answers with the success response and
inserts a second job, leaving the pending one untouched. -/
theorem run_experiment_pending_redispatch_accepted :
    run_experiment
        { experiments := [{ id := 1, user_id := 10, name := "exp", code := "print" }]
          jobs := [{ id := 5, experiment_id := 1, runner_id := 2, code := "print",
                     status := .Pending }]
          runners := [{ id := 2, access_key := "key" }]
          next_job_id := 6 }
        true 10 1 2
      = ({ experiments := [{ id := 1, user_id := 10, name := "exp", code := "print" }]
           jobs := [{ id := 5, experiment_id := 1, runner_id := 2, code := "print",
                      status := .Pending },
                    { id := 6, experiment_id := 1, runner_id := 2, code := "print",
                      status := .Pending }]
           runners := [{ id := 2, access_key := "key" }]
           next_job_id := 7 },
         .ok .success)
      ∧ (Except.ok HandlerResponse.success
          ≠ (Except.error ErrorMessage.InvalidOperationForStatus :
              Except ErrorMessage HandlerResponse)) :=
  ⟨rfl, fun h => Except.noConfusion h⟩

/-- Claim C6 amended: `run_experiment` performs no status check at all.  It
never returns `InvalidOperationForStatus`, and whenever the caller's
experiment and the runner exist it inserts a new job and reports success
regardless of the statuses of existing jobs. -/
theorem run_experiment_never_invalid_operation
    (db : DB) (send_ok : Bool) (user_id experiment_id runner_id : Nat) :
    (run_experiment db send_ok user_id experiment_id runner_id).2
        ≠ .error .InvalidOperationForStatus
      ∧ (∀ e, db.experiments.find?
            (fun x => x.user_id == user_id && x.id == experiment_id) = some e →
          ∀ r, db.runners.find? (fun x => x.id == runner_id) = some r →
            (run_experiment db send_ok user_id experiment_id runner_id).2 = .ok .success
              ∧ (run_experiment db send_ok user_id experiment_id runner_id).1.jobs.length
                  = db.jobs.length + 1) := by
  constructor
  · simp only [run_experiment]
    split
    · simp
    · split
      · simp
      · split <;> simp
  · intro e he r hr
    simp only [run_experiment, he, hr]
    cases send_ok with
    | false => simp
    | true => simp

/-- Witness for C6's amended statement on a database with a `Running` job. -/
theorem run_experiment_never_invalid_operation_witness :
    (run_experiment
        { experiments := [{ id := 4, user_id := 9, name := "x", code := "y" }]
          jobs := [{ id := 0, experiment_id := 4, runner_id := 8, code := "y",
                     status := .Running }]
          runners := [{ id := 8, access_key := "a" }], next_job_id := 1 }
        true 9 4 8).2
        ≠ .error .InvalidOperationForStatus
      ∧ ((run_experiment
            { experiments := [{ id := 4, user_id := 9, name := "x", code := "y" }]
              jobs := [{ id := 0, experiment_id := 4, runner_id := 8, code := "y",
                         status := .Running }]
              runners := [{ id := 8, access_key := "a" }], next_job_id := 1 }
            true 9 4 8).2 = .ok .success
          ∧ (run_experiment
              { experiments := [{ id := 4, user_id := 9, name := "x", code := "y" }]
                jobs := [{ id := 0, experiment_id := 4, runner_id := 8, code := "y",
                           status := .Running }]
                runners := [{ id := 8, access_key := "a" }], next_job_id := 1 }
              true 9 4 8).1.jobs.length
            = 2) :=
  ⟨(run_experiment_never_invalid_operation
      { experiments := [{ id := 4, user_id := 9, name := "x", code := "y" }]
        jobs := [{ id := 0, experiment_id := 4, runner_id := 8, code := "y",
                   status := .Running }]
        runners := [{ id := 8, access_key := "a" }], next_job_id := 1 }
      true 9 4 8).1,
   (run_experiment_never_invalid_operation
      { experiments := [{ id := 4, user_id := 9, name := "x", code := "y" }]
        jobs := [{ id := 0, experiment_id := 4, runner_id := 8, code := "y",
                   status := .Running }]
        runners := [{ id := 8, access_key := "a" }], next_job_id := 1 }
      true 9 4 8).2 { id := 4, user_id := 9, name := "x", code := "y" } rfl
      { id := 8, access_key := "a" } rfl⟩

/-- Claim C7: the Job row created by a successful dispatch carries a copy of
the experiment's `code` as read at dispatch time.  The inserted job's `code`
is the experiment's current code; `update_experiment_code` afterwards leaves
the jobs table untouched, rewrites the experiment's code, and the job still
holds the dispatch-time snapshot. -/
theorem job_code_snapshot_immutable
    (db : DB) (user_id experiment_id runner_id : Nat) (e : Experiment)
    (he : db.experiments.find?
        (fun x => x.user_id == user_id && x.id == experiment_id) = some e)
    (r : Runner) (hr : db.runners.find? (fun x => x.id == runner_id) = some r)
    (newCode : String) :
    ((run_experiment db true user_id experiment_id runner_id).1.jobs.getLast?
        = some { id := db.next_job_id, experiment_id := e.id, runner_id := r.id,
                 code := e.code, status := .Pending })
      ∧ (update_experiment_code (run_experiment db true user_id experiment_id runner_id).1
            user_id experiment_id newCode).1.jobs
          = (run_experiment db true user_id experiment_id runner_id).1.jobs
      ∧ (update_experiment_code (run_experiment db true user_id experiment_id runner_id).1
            user_id experiment_id newCode).1.experiments.find?
            (fun x => x.user_id == user_id && x.id == experiment_id)
          = some { e with code := newCode }
      ∧ ((update_experiment_code (run_experiment db true user_id experiment_id runner_id).1
            user_id experiment_id newCode).1.jobs.getLast?
          = some { id := db.next_job_id, experiment_id := e.id, runner_id := r.id,
                   code := e.code, status := .Pending }) := by
  have hrun : (run_experiment db true user_id experiment_id runner_id).1
      = { db with
            jobs := db.jobs ++
              [{ id := db.next_job_id, experiment_id := e.id, runner_id := r.id,
                 code := e.code, status := .Pending }],
            next_job_id := db.next_job_id + 1 } := by
    simp only [run_experiment, he, hr, if_true]
  have hlast : (run_experiment db true user_id experiment_id runner_id).1.jobs.getLast?
      = some { id := db.next_job_id, experiment_id := e.id, runner_id := r.id,
               code := e.code, status := .Pending } := by
    rw [hrun]
    exact List.getLast?_concat _
  refine ⟨hlast, rfl, ?_, hlast⟩
  show ((run_experiment db true user_id experiment_id runner_id).1.experiments.map fun x =>
      if x.user_id == user_id && x.id == experiment_id
      then { x with code := newCode } else x).find?
    (fun x => x.user_id == user_id && x.id == experiment_id)
    = some { e with code := newCode }
  rw [hrun]
  exact find?_map_set_code user_id experiment_id newCode db.experiments e he

/-- Witness for C7: dispatching experiment 1 to runner 3 and then changing
the experiment's code from `"c"` to `"c2"` leaves the job's code at `"c"`. -/
theorem job_code_snapshot_immutable_witness :
    ((run_experiment
        { experiments := [{ id := 1, user_id := 2, name := "e", code := "c" }]
          jobs := [], runners := [{ id := 3, access_key := "k" }], next_job_id := 0 }
        true 2 1 3).1.jobs.getLast?
        = some { id := 0, experiment_id := 1, runner_id := 3,
                 code := "c", status := .Pending })
      ∧ (update_experiment_code
            (run_experiment
              { experiments := [{ id := 1, user_id := 2, name := "e", code := "c" }]
                jobs := [], runners := [{ id := 3, access_key := "k" }], next_job_id := 0 }
              true 2 1 3).1 2 1 "c2").1.jobs
          = (run_experiment
              { experiments := [{ id := 1, user_id := 2, name := "e", code := "c" }]
                jobs := [], runners := [{ id := 3, access_key := "k" }], next_job_id := 0 }
              true 2 1 3).1.jobs
      ∧ (update_experiment_code
            (run_experiment
              { experiments := [{ id := 1, user_id := 2, name := "e", code := "c" }]
                jobs := [], runners := [{ id := 3, access_key := "k" }], next_job_id := 0 }
              true 2 1 3).1 2 1 "c2").1.experiments.find?
            (fun x => x.user_id == 2 && x.id == 1)
          = some { id := 1, user_id := 2, name := "e", code := "c2" }
      ∧ ((update_experiment_code
            (run_experiment
              { experiments := [{ id := 1, user_id := 2, name := "e", code := "c" }]
                jobs := [], runners := [{ id := 3, access_key := "k" }], next_job_id := 0 }
              true 2 1 3).1 2 1 "c2").1.jobs.getLast?
          = some { id := 0, experiment_id := 1, runner_id := 3,
                   code := "c", status := .Pending }) :=
  job_code_snapshot_immutable
    { experiments := [{ id := 1, user_id := 2, name := "e", code := "c" }]
      jobs := [], runners := [{ id := 3, access_key := "k" }], next_job_id := 0 }
    2 1 3 { id := 1, user_id := 2, name := "e", code := "c" } rfl
    { id := 3, access_key := "k" } rfl "c2"

/-- Claim C8: `update_experiment_name` and `delete_experiment` answer with
the success response for every caller and target; when the target row does
not belong to the caller the ownership filter matches zero rows and the
database is left unchanged. -/
theorem update_delete_succeed_without_ownership
    (db : DB) (user_id experiment_id : Nat) (name : String)
    (h : ∀ e ∈ db.experiments, e.id = experiment_id → e.user_id ≠ user_id) :
    (update_experiment_name db user_id experiment_id name).2 = .ok .success
      ∧ (update_experiment_name db user_id experiment_id name).1 = db
      ∧ (delete_experiment db user_id experiment_id).2 = .ok .success
      ∧ (delete_experiment db user_id experiment_id).1 = db := by
  have hcond : ∀ e ∈ db.experiments,
      (e.user_id == user_id && e.id == experiment_id) = false := by
    intro e hee
    rw [Bool.eq_false_iff]
    intro hcc
    rw [Bool.and_eq_true, beq_iff_eq, beq_iff_eq] at hcc
    exact h e hee hcc.2 hcc.1
  refine ⟨rfl, ?_, rfl, ?_⟩
  · show ({ db with experiments := db.experiments.map fun e =>
        if e.user_id == user_id && e.id == experiment_id
        then { e with name := name } else e } : DB) = db
    have hmap : (db.experiments.map fun e =>
        if e.user_id == user_id && e.id == experiment_id
        then { e with name := name } else e) = db.experiments := by
      apply list_map_eq_self
      intro e hee
      simp [hcond e hee]
    rw [hmap]
  · show ({ db with experiments := db.experiments.filter fun e =>
        !(e.user_id == user_id && e.id == experiment_id) } : DB) = db
    have hfil : (db.experiments.filter fun e =>
        !(e.user_id == user_id && e.id == experiment_id)) = db.experiments := by
      apply list_filter_eq_self
      intro e hee
      simp [hcond e hee]
    rw [hfil]

/-- Witness for C8: user 4 targets experiment 1 owned by user 3; both
endpoints report success and the database is unchanged. -/
theorem update_delete_succeed_without_ownership_witness :
    (update_experiment_name
        { experiments := [{ id := 1, user_id := 3, name := "n", code := "c" }]
          jobs := [], runners := [], next_job_id := 0 } 4 1 "nm").2 = .ok .success
      ∧ (update_experiment_name
          { experiments := [{ id := 1, user_id := 3, name := "n", code := "c" }]
            jobs := [], runners := [], next_job_id := 0 } 4 1 "nm").1
        = { experiments := [{ id := 1, user_id := 3, name := "n", code := "c" }]
            jobs := [], runners := [], next_job_id := 0 }
      ∧ (delete_experiment
          { experiments := [{ id := 1, user_id := 3, name := "n", code := "c" }]
            jobs := [], runners := [], next_job_id := 0 } 4 1).2 = .ok .success
      ∧ (delete_experiment
          { experiments := [{ id := 1, user_id := 3, name := "n", code := "c" }]
            jobs := [], runners := [], next_job_id := 0 } 4 1).1
        = { experiments := [{ id := 1, user_id := 3, name := "n", code := "c" }]
            jobs := [], runners := [], next_job_id := 0 } :=
  update_delete_succeed_without_ownership
    { experiments := [{ id := 1, user_id := 3, name := "n", code := "c" }]
      jobs := [], runners := [], next_job_id := 0 } 4 1 "nm"
    (by decide)

end Testbed
